import Mathlib

/-!
Shallow embedding of the Befunge editor's interpreter core
(src/befunge.rs) and of the execution-rate scheduler loop
(src/app.rs), with theorems settling the frozen claims.

Conventions of the embedding:
* Rust `i64` values are carried as `Int`; where Rust arithmetic can
  overflow we apply the release-build two's-complement wrap
  explicitly (`wrap64`).  `as usize` / `as u32` reinterpretations are
  modelled by `toUsize` / `toU32`.
* Code that can panic (failed `unwrap`/`expect`, `assert_ne!`,
  `todo!()`, out-of-bounds indexing, the catch-all invalid-opcode arm
  of `do_op`) is modelled in the `Option` monad: `none` means the Rust
  code panics.
* The `HashMap` of `FungeSpace` is modelled as an association list
  with unique keys (insert = remove-then-cons); iteration order of the
  Rust map is unspecified, the list order is one faithful
  representative.
* The wall-clock telemetry fields (`pos_history`, `get_history`,
  `put_history`, timestamps) are elided: per the code they only feed
  the rendering layer and never affect interpretation.
-/

namespace Befunge

abbrev Coord := Int × Int

/-- Largest `i64` value, `i64::MAX`. -/
def i64Max : Int := 2 ^ 63 - 1

/-- Smallest `i64` value, `i64::MIN`. -/
def i64Min : Int := -(2 ^ 63)

/-- Two's-complement wrap of an arithmetic result into the `i64` range
(release-build Rust overflow semantics). -/
def wrap64 (n : Int) : Int := (n + 2 ^ 63) % 2 ^ 64 - 2 ^ 63

/-- Reinterpretation of an `i64` as a `usize` (`as usize`): value modulo 2^64,
in [0, 2^64). -/
def toUsize (n : Int) : Int := n % 2 ^ 64

/-- Truncation of an `i64` to its low 32 bits (`as u32`): value modulo 2^32. -/
def toU32 (n : Int) : Int := n % 2 ^ 32

/-- `char::from_u32` on the low 32 bits of `val` (the code does
`char::from_u32(val as u32)`): returns the Unicode scalar value as a `Nat`,
or `none` when the 32-bit value is a surrogate or above 0x10FFFF. -/
def charFromU32 (val : Int) : Option Nat :=
  let u := toU32 val
  if u < 0xD800 ∨ (0xE000 ≤ u ∧ u ≤ 0x10FFFF) then some u.toNat else none

/-- The sparse 2D program memory (struct FungeSpace, src/befunge.rs).
`map` is the general-purpose hash map (association list with unique keys),
`zero_page` the dense 10×10 near-origin cache (`Box<[i64; 100]>`). -/
structure FungeSpace where
  map : List (Coord × Int)
  zero_page : List Int
  deriving DecidableEq

namespace FungeSpace

/-- `FungeSpace::new`: empty map, zero page filled with the space value. -/
def new : FungeSpace := ⟨[], List.replicate 100 32⟩

/-- `FungeSpace::set`.  The dense branch indexes
`zero_page[(pos.0 + pos.1 * 10) as usize]` (panic when the reinterpreted
index is out of bounds).  In the sparse branch the code removes the entry
when the value is the space and then unconditionally re-inserts it, so the
net effect is always an insert. -/
def set (fs : FungeSpace) (pos : Coord) (val : Int) : Option FungeSpace :=
  if pos.1 < 10 ∧ pos.2 < 10 then
    let idx := toUsize (wrap64 (pos.1 + wrap64 (pos.2 * 10)))
    if idx < 100 then
      some { fs with zero_page := fs.zero_page.set idx.toNat val }
    else none
  else
    some { fs with map := (pos, val) :: fs.map.filter (fun e => e.1 ≠ pos) }

/-- `FungeSpace::get`.  Outer `Option` is panic (the dense branch does
`usize::try_from(..).unwrap()` and an unchecked index), inner `Option` is
the Rust return value. -/
def get (fs : FungeSpace) (pos : Coord) : Option (Option Int) :=
  if pos.1 < 10 ∧ pos.2 < 10 then
    let idx := wrap64 (pos.1 + wrap64 (pos.2 * 10))
    if 0 ≤ idx ∧ idx < 100 then some (some (fs.zero_page.getD idx.toNat 0))
    else none
  else
    some ((fs.map.find? (fun e => e.1 == pos)).map (·.2))

/-- `FungeSpace::get_wrapped`: 0 for any coordinate with a negative
component, the dense value in the zero page, else the sparse entry or the
space value. -/
def get_wrapped (fs : FungeSpace) (pos : Coord) : Int :=
  if pos.1 < 0 ∨ pos.2 < 0 then 0
  else if pos.1 < 10 ∧ pos.2 < 10 then
    fs.zero_page.getD (pos.1 + pos.2 * 10).toNat 0
  else
    match fs.map.find? (fun e => e.1 == pos) with
    | some e => e.2
    | none => 32

/-- The zero-page part of `FungeSpace::entries`: cell `i` maps to
coordinate `(i % 10, i / 10)`. -/
def zeroPageEntries (fs : FungeSpace) : List (Coord × Int) :=
  (List.range 100).map
    (fun (i : Nat) => (((i : Int) % 10, (i : Int) / 10), fs.zero_page.getD i 0))

/-- `FungeSpace::entries`: every sparse entry, then every zero-page cell. -/
def entries (fs : FungeSpace) : List (Coord × Int) :=
  fs.map ++ fs.zeroPageEntries

/-- `FungeSpace::height`: one more than the maximum of 10 and the largest
row index of a sparse entry. -/
def height (fs : FungeSpace) : Int :=
  fs.map.foldl (fun h e => if e.1.2 > h then e.1.2 else h) 10 + 1

/-- One iteration of the `serialize` loop body on the row buffers:
index row `y as usize` (panic when out of bounds); if the row is shorter
than `x as usize`, pad it with spaces and append the decoded character
(with the assertions that the value is not a newline or carriage return),
otherwise overwrite in place (no assertions on that path).  Decoding is
`char::from_u32(val as u32).expect(..)`: `none` is the panic. -/
def serializeCell (lines : List (List Nat)) (x y val : Int) : Option (List (List Nat)) :=
  let yu := (toUsize y).toNat
  if yu < lines.length then
    let line := lines.getD yu []
    let xu := (toUsize x).toNat
    if line.length ≤ xu then
      if val = 10 ∨ val = 13 then none
      else (charFromU32 val).map
        (fun c => lines.set yu (line ++ List.replicate (xu - line.length) 32 ++ [c]))
    else (charFromU32 val).map (fun c => lines.set yu (line.set xu c))
  else none

/-- `FungeSpace::serialize`: build `height` empty rows, place every
materialized cell, then join the rows, terminating each with a newline.
The output text is modelled as the list of its Unicode scalar values. -/
def serialize (fs : FungeSpace) : Option (List Nat) := do
  let init : List (List Nat) := List.replicate fs.height.toNat []
  let lines ← fs.entries.foldlM (fun ls e => serializeCell ls e.1.1 e.1.2 e.2) init
  return lines.foldl (fun out line => out ++ line ++ [10]) []

end FungeSpace

/-- Split a text at every newline (the pieces keep no terminator). -/
def splitNL : List Nat → List (List Nat)
  | [] => [[]]
  | c :: rest =>
    if c = 10 then [] :: splitNL rest
    else
      match splitNL rest with
      | [] => [[c]]
      | l :: ls => (c :: l) :: ls

/-- Remove one trailing carriage return. -/
def stripCR (l : List Nat) : List Nat :=
  if l.getLast? = some 13 then l.dropLast else l

/-- Rust `str::lines`: split at newlines, drop the piece after a final
newline, and strip one carriage return from every newline-terminated
piece (an unterminated final piece keeps a trailing carriage return). -/
def rustLines (s : List Nat) : List (List Nat) :=
  match (splitNL s).reverse with
  | [] => []
  | last :: revInit =>
    let initStripped := (revInit.map stripCR).reverse
    if last = [] then initStripped else initStripped ++ [last]

/-- Inner loop of `FungeSpace::new_from_string`: write the characters of
one line at `(x, y)` for `x = 0, 1, ...` (the `x.try_into().unwrap()`
fails above `i64::MAX`). -/
def setRow (y : Int) : FungeSpace → Nat → List Nat → Option FungeSpace
  | fs, _, [] => some fs
  | fs, x, c :: rest => do
    if (x : Int) > i64Max then none
    else
      let fs' ← fs.set ((x : Int), y) (c : Int)
      setRow y fs' (x + 1) rest

/-- Outer loop of `FungeSpace::new_from_string` over the enumerated lines. -/
def setRows : FungeSpace → Nat → List (List Nat) → Option FungeSpace
  | fs, _, [] => some fs
  | fs, y, line :: rest => do
    if (y : Int) > i64Max then none
    else
      let fs' ← setRow (y : Int) fs 0 line
      setRows fs' (y + 1) rest

/-- `FungeSpace::new_from_string`: start from the fresh grid and `set`
every character of every line at its coordinate. -/
def FungeSpace.new_from_string (input : List Nat) : Option FungeSpace :=
  setRows FungeSpace.new 0 (rustLines input)

/-! ### The interpreter VM (struct State, src/befunge.rs) -/

/-- Direction of the instruction pointer. -/
inductive Direction
  | North
  | South
  | East
  | West
  deriving DecidableEq

/-- Modelled from the spec: `Direction::reverse`, called by the Reflect
policy in src/app.rs but absent from the revision of the interpreter in
src; §4.2: Reflect reverses the direction. -/
def Direction.reverse : Direction → Direction
  | .North => .South
  | .South => .North
  | .East => .West
  | .West => .East

/-- The invalid-operation policy (src/app.rs). -/
inductive InvalidOperationBehaviour
  | Reflect
  | Halt
  | Ignore
  deriving DecidableEq

/-- The semantic part of the Settings struct (src/app.rs).  The history
flags and colors only gate wall-clock telemetry and the renderer and are
elided. -/
structure Settings where
  skip_spaces : Bool
  invalid_operation_behaviour : InvalidOperationBehaviour
  deriving DecidableEq

/-- `Settings::default()`: skip_spaces off, Halt on invalid operations. -/
def defaultSettings : Settings := ⟨false, .Halt⟩

/-- Events consumed by the `z` opcode. -/
inductive Event
  | Close
  | MouseClick (x y : Int)
  deriving DecidableEq

/-- egui `Color32`, reduced to the rgb triple that `from_rgb` stores. -/
structure Color32 where
  r : Nat
  g : Nat
  b : Nat
  deriving DecidableEq

def Color32.BLACK : Color32 := ⟨0, 0, 0⟩

/-- The raster-graphics sub-machine (struct Graphics). -/
structure Graphics where
  size : Nat × Nat
  texture : List Color32
  current_color : Color32
  event_queue : List Event
  deriving DecidableEq

/-- `Graphics::new(x, y)`: size (x, y), black buffer of y·x pixels. -/
def Graphics.new (x y : Nat) : Graphics :=
  ⟨(x, y), List.replicate (y * x) Color32.BLACK, Color32.BLACK, []⟩

/-- `Graphics::pixel`: paints the current color at index
`x + y * self.size.1` — the stride is `size.1`, the height.  The index
arithmetic is usize (wrap at 2^64); out-of-bounds indexing is the panic
`none` (the FIXME in the code). -/
def Graphics.pixel (g : Graphics) (x y : Nat) : Option Graphics :=
  let index := (x + y * g.size.2) % 2 ^ 64
  if index < g.texture.length then
    some { g with texture := g.texture.set index g.current_color }
  else none

/-- `i64 → u8` TryInto. -/
def tryIntoU8 (v : Int) : Option Nat :=
  if 0 ≤ v ∧ v ≤ 255 then some v.toNat else none

/-- `i64 → usize` TryInto (fails exactly on negatives). -/
def tryIntoUsize (v : Int) : Option Nat :=
  if 0 ≤ v then some v.toNat else none

/-- `i64 → i32` TryInto. -/
def tryIntoI32 (v : Int) : Option Int :=
  if -(2 ^ 31) ≤ v ∧ v ≤ 2 ^ 31 - 1 then some v else none

/-- Modelled from the spec: the `AnyOctant` line iterator of the external
clipline crate (its source is not in the repository); §4.3: an any-octant
integer line algorithm painting every pixel between the endpoints.  This
is the classic integer Bresenham walk; `fuel` bounds the recursion. -/
def lineCoordsAux (x2 y2 sx sy dx dy : Int) :
    Int → Int → Int → Nat → List (Int × Int)
  | _, _, _, 0 => []
  | x, y, err, fuel + 1 =>
    (x, y) ::
      (if x = x2 ∧ y = y2 then []
       else
         let e2 := 2 * err
         let err1 := if e2 ≥ dy then err + dy else err
         let x1 := if e2 ≥ dy then x + sx else x
         let err2 := if e2 ≤ dx then err1 + dx else err1
         let y1 := if e2 ≤ dx then y + sy else y
         lineCoordsAux x2 y2 sx sy dx dy x1 y1 err2 fuel)

/-- Modelled from the spec: the list of pixels covered by the line from
`p1` to `p2` (see `lineCoordsAux`). -/
def lineCoords (p1 p2 : Int × Int) : List (Int × Int) :=
  let dx := ((p2.1 - p1.1).natAbs : Int)
  let dy := ((p2.2 - p1.2).natAbs : Int)
  let sx : Int := if p1.1 < p2.1 then 1 else -1
  let sy : Int := if p1.2 < p2.2 then 1 else -1
  lineCoordsAux p2.1 p2.2 sx sy dx (-dy) p1.1 p1.2 (dx - dy) (dx + dy + 1).toNat

/-- The interpreter state (struct State, src/befunge.rs).  The stack top
is the list head (Rust pushes and pops at the Vec end); the output string
and the input buffer are carried as text; the telemetry history maps are
elided. -/
structure State where
  map : FungeSpace
  position : Coord
  direction : Direction
  stack : List Int
  string_mode : Bool
  output : String
  graphics : Option Graphics
  breakpoints : List Coord
  input_buffer : List Nat
  deriving DecidableEq

namespace State

/-- `State::default()` / `State::new()`. -/
def new : State :=
  ⟨FungeSpace.new, (0, 0), .East, [], false, "", none, [], []⟩

/-- `State::new_from_fungespace`. -/
def new_from_fungespace (fs : FungeSpace) : State :=
  { new with map := fs }

/-- `State::pop`: `stack.pop().unwrap_or(0)`. -/
def pop (s : State) : State × Int :=
  match s.stack with
  | [] => (s, 0)
  | a :: rest => ({ s with stack := rest }, a)

end State

/-- The directional move of `State::step_position_inner`, before the
negative-component wrap (i64 arithmetic with release-build wrapping). -/
def stepMove (pos : Coord) (dir : Direction) : Coord :=
  match dir with
  | .North => (pos.1, wrap64 (pos.2 - 1))
  | .South => (pos.1, wrap64 (pos.2 + 1))
  | .East => (wrap64 (pos.1 + 1), pos.2)
  | .West => (wrap64 (pos.1 - 1), pos.2)

/-- The coordinate update of `State::step_position_inner`: move one cell,
then wrap each negative component by adding `i64::MAX` and then 1. -/
def stepPositionCoord (pos : Coord) (dir : Direction) : Coord :=
  let p := stepMove pos dir
  let p : Coord := if p.1 < 0 then (wrap64 (wrap64 (p.1 + i64Max) + 1), p.2) else p
  if p.2 < 0 then (p.1, wrap64 (wrap64 (p.2 + i64Max) + 1)) else p

/-- `State::step_position_inner`.  `State::step_position` only adds the
position-history telemetry and therefore coincides with it here. -/
def State.step_position_inner (s : State) : State :=
  { s with position := stepPositionCoord s.position s.direction }

/-- `State::do_op` (src/befunge.rs): dispatch one opcode byte.  The
returned Bool is the Rust return value (true = stop); `none` is a panic:
the `todo!()` of the unimplemented `&`, failed numeric conversions,
division by zero or overflow, `FungeSpace::set` panics, pixel
out-of-bounds, and the catch-all invalid-operation arm. -/
def State.do_op (s : State) (op : Nat) (_settings : Settings) : Option (State × Bool) :=
  if op = 34 then -- double quote: enter string mode
    some ({ s with string_mode := true }, false)
  else if 48 ≤ op ∧ op ≤ 57 then -- digits
    some ({ s with stack := ((op : Int) - 48) :: s.stack }, false)
  else if op = 43 then -- plus
    let (s1, a) := s.pop
    let (s2, b) := s1.pop
    some ({ s2 with stack := wrap64 (b + a) :: s2.stack }, false)
  else if op = 45 then -- minus
    let (s1, a) := s.pop
    let (s2, b) := s1.pop
    some ({ s2 with stack := wrap64 (b - a) :: s2.stack }, false)
  else if op = 42 then -- times
    let (s1, a) := s.pop
    let (s2, b) := s1.pop
    some ({ s2 with stack := wrap64 (b * a) :: s2.stack }, false)
  else if op = 47 then -- divide (Rust panics on a = 0 and on MIN / -1)
    let (s1, a) := s.pop
    let (s2, b) := s1.pop
    if a = 0 ∨ (b = i64Min ∧ a = -1) then none
    else some ({ s2 with stack := b.tdiv a :: s2.stack }, false)
  else if op = 37 then -- remainder (same panics as divide)
    let (s1, a) := s.pop
    let (s2, b) := s1.pop
    if a = 0 ∨ (b = i64Min ∧ a = -1) then none
    else some ({ s2 with stack := b.tmod a :: s2.stack }, false)
  else if op = 96 then -- backquote: greater-than
    let (s1, a) := s.pop
    let (s2, b) := s1.pop
    some ({ s2 with stack := (if b > a then 1 else 0) :: s2.stack }, false)
  else if op = 92 then -- backslash: swap
    let (s1, a) := s.pop
    let (s2, b) := s1.pop
    some ({ s2 with stack := b :: a :: s2.stack }, false)
  else if op = 33 then -- bang: logical not
    let (s1, a) := s.pop
    some ({ s1 with stack := (if a = 0 then 1 else 0) :: s1.stack }, false)
  else if op = 58 then -- colon: duplicate
    let (s1, a) := s.pop
    some ({ s1 with stack := a :: a :: s1.stack }, false)
  else if op = 36 then -- dollar: discard
    some (s.pop.1, false)
  else if op = 62 then some ({ s with direction := .East }, false)
  else if op = 60 then some ({ s with direction := .West }, false)
  else if op = 94 then some ({ s with direction := .North }, false)
  else if op = 118 then some ({ s with direction := .South }, false)
  else if op = 35 then -- hash: skip forwards one
    some (s.step_position_inner, false)
  else if op = 95 then -- underscore: horizontal branch
    let (s1, status) := s.pop
    some ({ s1 with direction := if status = 0 then .East else .West }, false)
  else if op = 124 then -- pipe: vertical branch
    let (s1, status) := s.pop
    some ({ s1 with direction := if status = 0 then .South else .North }, false)
  else if op = 112 then -- p: put
    let (s1, y) := s.pop
    let (s2, x) := s1.pop
    let (s3, value) := s2.pop
    (s3.map.set (x, y) value).map (fun m => ({ s3 with map := m }, false))
  else if op = 103 then -- g: get
    let (s1, y) := s.pop
    let (s2, x) := s1.pop
    some ({ s2 with stack := s2.map.get_wrapped (x, y) :: s2.stack }, false)
  else if op = 38 then -- ampersand: numeric input, todo!()
    none
  else if op = 126 then -- tilde: character input
    match s.input_buffer with
    | [] => some (s, true)
    | c :: rest =>
      some ({ s with stack := (c : Int) :: s.stack, input_buffer := rest }, false)
  else if op = 64 then -- at: halt
    some (s, true)
  else if op = 46 then -- dot: decimal output
    let (s1, a) := s.pop
    some ({ s1 with output := s1.output ++ toString a }, false)
  else if op = 44 then -- comma: character output (u32 → char unwrap)
    let (s1, a) := s.pop
    (charFromU32 a).map
      (fun c => ({ s1 with output := s1.output.push (Char.ofNat c) }, false))
  else if op = 115 then -- s: graphics setup
    let (s1, y) := s.pop
    let (s2, x) := s1.pop
    some ({ s2 with graphics := some (Graphics.new (toUsize x).toNat (toUsize y).toNat) },
      false)
  else if op = 102 then -- f: configure color
    match s.graphics with
    | none => some (s, false)
    | some gr => do
      let (s1, bv) := s.pop
      let (s2, gv) := s1.pop
      let (s3, rv) := s2.pop
      let bu ← tryIntoU8 bv
      let gu ← tryIntoU8 gv
      let ru ← tryIntoU8 rv
      -- from_rgb receives (b, g, r) in the code: the popped blue value
      -- lands in the red field and vice versa
      some ({ s3 with graphics := some { gr with current_color := ⟨bu, gu, ru⟩ } }, false)
  else if op = 120 then -- x: set pixel
    match s.graphics with
    | none => some (s, false)
    | some gr => do
      let (s1, yv) := s.pop
      let (s2, xv) := s1.pop
      let y ← tryIntoUsize yv
      let x ← tryIntoUsize xv
      let gr' ← gr.pixel x y
      some ({ s2 with graphics := some gr' }, false)
  else if op = 99 then -- c: fill
    match s.graphics with
    | none => some (s, false)
    | some gr =>
      let gr' := { gr with texture := List.replicate (gr.size.1 * gr.size.2) gr.current_color }
      some ({ s with graphics := some gr' }, false)
  else if op = 117 then -- u: update, noop for now
    some (s, false)
  else if op = 108 then -- l: line
    match s.graphics with
    | none => some (s, false)
    | some gr => do
      let (s1, y1v) := s.pop
      let (s2, x1v) := s1.pop
      let (s3, y2v) := s2.pop
      let (s4, x2v) := s3.pop
      let y1 ← tryIntoI32 y1v
      let x1 ← tryIntoI32 x1v
      let y2 ← tryIntoI32 y2v
      let x2 ← tryIntoI32 x2v
      let gr' ← (lineCoords (x1, y1) (x2, y2)).foldlM
        (fun g p => do
          let px ← tryIntoUsize p.1
          let py ← tryIntoUsize p.2
          g.pixel px py) gr
      some ({ s4 with graphics := some gr' }, false)
  else if op = 122 then -- z: poll event
    match s.graphics with
    | none => some (s, false)
    | some gr =>
      match gr.event_queue with
      | [] => some ({ s with stack := 0 :: s.stack }, false)
      | e :: rest =>
        let s' := { s with graphics := some { gr with event_queue := rest } }
        match e with
        | .Close => some ({ s' with stack := 1 :: s'.stack }, false)
        | .MouseClick x y => some ({ s' with stack := 4 :: x :: y :: s'.stack }, false)
  else if op = 32 then -- space: noop
    some (s, false)
  else
    none -- the catch-all arm: invalid operation, a panic

/-- `State::step_inner`: read the cell under the pointer; in string mode
push it (or leave string mode on a double quote) and advance; otherwise
dispatch the opcode when it is present and fits in a byte (silently
advancing when it does not), returning true without advancing when
`do_op` returns true. -/
def State.step_inner (s : State) (settings : Settings) : Option (State × Bool) := do
  let op ← s.map.get s.position
  if s.string_mode then
    let o := op.getD 32
    if o = 34 then
      some (({ s with string_mode := false }).step_position_inner, false)
    else
      some (({ s with stack := o :: s.stack }).step_position_inner, false)
  else
    match op with
    | some o =>
      match tryIntoU8 o with
      | some u => do
        let (s1, halted) ← s.do_op u settings
        if halted then some (s1, true)
        else some (s1.step_position_inner, false)
      | none => some (s.step_position_inner, false)
    | none => some (s.step_position_inner, false)

/-- The skip-spaces loop of `State::step`: keep advancing while the
current cell reads as a space; the safety counter bounds the loop to 999
advances. -/
def State.skipSpaces : Nat → State → State
  | 0, s => s
  | fuel + 1, s =>
    if s.map.get_wrapped s.position = 32 then State.skipSpaces fuel s.step_position_inner
    else s

/-- `State::step`: one step, then force the result to true on a
breakpoint at the new position, then optionally skip spaces. -/
def State.step (s : State) (settings : Settings) : Option (State × Bool) := do
  let (s1, res) ← s.step_inner settings
  let res := if s1.breakpoints.contains s1.position then true else res
  let s2 := if settings.skip_spaces ∧ ¬s1.string_mode then State.skipSpaces 999 s1 else s1
  return (s2, res)

/-- `n` consecutive calls of `State::step`, with the step statuses
discarded (manual stepping). -/
def State.runSteps (settings : Settings) : Nat → State → Option State
  | 0, s => some s
  | n + 1, s => do
    let (s', _) ← s.step settings
    State.runSteps settings n s'

/-! ### The execution-rate scheduler (src/app.rs) -/

/-- Modelled from the spec: the error type the scheduler stores (src/app.rs
uses `befunge::Error`, whose defining revision of the interpreter is not
in src); §7: InvalidOperation is the recoverable error kind. -/
inductive BefError
  | InvalidOperation
  deriving DecidableEq

/-- Modelled from the spec: the step-status type (src/app.rs consumes
`StepStatus`, absent from the interpreter revision in src); §4.2: a step
returns Normal, Breakpoint, or Error(kind). -/
inductive StepStatus
  | Normal
  | Breakpoint
  | Error (e : BefError)
  deriving DecidableEq

/-- `Mode::step_befunge_inner` (src/app.rs): run one VM step and apply
the configured invalid-operation policy.  The step itself is a parameter
(its StepStatus-returning revision is not in src); the scheduler state is
the triple (VM state, running flag, error state); the returned Bool stops
the enclosing batch. -/
def stepBefungeInner (step : State → State × StepStatus) (settings : Settings)
    (st : State × Bool × Option BefError) : (State × Bool × Option BefError) × Bool :=
  let (bf, running, err) := st
  let (bf', status) := step bf
  match status with
  | .Normal => ((bf', running, err), false)
  | .Breakpoint => ((bf', false, err), true)
  | .Error e =>
    match settings.invalid_operation_behaviour with
    | .Reflect =>
      ((({ bf' with direction := bf'.direction.reverse }).step_position_inner, running, err),
        false)
    | .Halt => ((bf', running, some e), true)
    | .Ignore => ((bf'.step_position_inner, running, err), false)

/-- The inner for-loop of `Mode::step_befunge`: run the body up to `n`
times, returning early when it yields true, and count the executed
steps. -/
def runBatch {σ : Type} (f : σ → σ × Bool) : Nat → σ → σ × Nat
  | 0, s => (s, 0)
  | n + 1, s =>
    let (s', stop) := f s
    if stop then (s', 1)
    else
      let (s'', k) := runBatch f n s'
      (s'', k + 1)

/-- The iteration count of the speed-10..=15 arm of `Mode::step_befunge`:
the code iterates the inclusive range `0..=2_usize.pow(speed as u32 - 8)`,
that is 2^(speed−8) + 1 times. -/
def batchIterations (speed : Nat) : Nat := 2 ^ (speed - 8) + 1

/-- One scheduler tick of `Mode::step_befunge` at speeds 10..=15 (entered
once the 32 Hz interval has elapsed), instrumented with the number of
executed steps. -/
def stepBefungeTick {σ : Type} (f : σ → σ × Bool) (speed : Nat) (s : σ) : σ × Nat :=
  runBatch f (batchIterations speed) s

/-- `k`-fold application of the loop body, following the non-stopping
component. -/
def applyN {σ : Type} (f : σ → σ × Bool) : Nat → σ → σ
  | 0, s => s
  | k + 1, s => applyN f k (f s).1

/-! ### Concrete instances used by the claim evaluations -/

/-- The concrete grid produced by `set (10,0) 32` on a fresh grid. -/
def c1Grid : FungeSpace := ⟨[(((10 : Int), (0 : Int)), (32 : Int))], List.replicate 100 32⟩

/-- A grid holding the letter A at (12, 0): the sparse entry plus the
default zero page. -/
def c2Grid : FungeSpace := ⟨[(((12 : Int), (0 : Int)), (65 : Int))], List.replicate 100 32⟩

/-- The text `serialize` produces for `c2Grid`: row 0 is twelve spaces
then A, rows 1–9 are ten spaces each, row 10 is empty, every row
newline-terminated. -/
def c2Text : List Nat :=
  (List.replicate 12 32 ++ [65, 10])
    ++ (List.replicate 9 (List.replicate 10 32 ++ [10])).flatten ++ [10]

/-- The grid `new_from_string` builds back from `c2Text`: the original
A entry plus two freshly materialized space entries at (11,0) and (10,0). -/
def c2Roundtrip : FungeSpace :=
  ⟨[(((12 : Int), (0 : Int)), (65 : Int)),
    (((11 : Int), (0 : Int)), (32 : Int)),
    (((10 : Int), (0 : Int)), (32 : Int))], List.replicate 100 32⟩

/-- A grid whose cell (0, 0) holds 2^40, a value outside the byte range. -/
def c3Grid : FungeSpace := ⟨[], (2 ^ 40) :: List.replicate 99 32⟩

/-- A VM whose current cell holds the non-byte value 2^40. -/
def c3State : State := State.new_from_fungespace c3Grid

/-- A grid whose cell (0, 0) holds 2^32 + 65, an integer that is not a
Unicode scalar value. -/
def c5Grid : FungeSpace := ⟨[], (2 ^ 32 + 65) :: List.replicate 99 32⟩

/-- The text `serialize` silently produces for `c5Grid`: the oversized
value is truncated to the letter A. -/
def c5Text : List Nat :=
  (65 :: List.replicate 9 32 ++ [10])
    ++ (List.replicate 9 (List.replicate 10 32 ++ [10])).flatten ++ [10]

/-- A 3-wide, 2-high graphics buffer with a non-black drawing color. -/
def c7Graphics : Graphics :=
  { Graphics.new 3 2 with current_color := ⟨10, 20, 30⟩ }

/-- The texture after `pixel 1 1` on `c7Graphics`: the color lands at
flat index 3 = 1 + 1·2 (stride = height), not at the row-major index
4 = 1 + 1·3 (stride = width) that the renderer uses. -/
def c7Texture : List Color32 :=
  [Color32.BLACK, Color32.BLACK, Color32.BLACK, ⟨10, 20, 30⟩, Color32.BLACK, Color32.BLACK]

/-- The program text of the subtraction scenario: push 5, push 3,
subtract, print. -/
def c8Text : List Nat := [53, 32, 51, 32, 45, 32, 46]

/-- A VM without a graphics sub-machine whose current cell holds the
opcode f (102). -/
def c10State : State :=
  State.new_from_fungespace ⟨[], (102 : Int) :: List.replicate 99 32⟩

/-- The counting instrumentation of the batch loop: the scheduler state
is the number of executed steps and no step ever asks to stop (every
step returns the Normal status). -/
def countingStep : Nat → Nat × Bool := fun n => (n + 1, false)

/-- A VM step that always reports an invalid operation, and the settings
choosing the Reflect policy. -/
def alwaysErrorStep : State → State × StepStatus :=
  fun bf => (bf, .Error .InvalidOperation)

/-- Settings with the Reflect invalid-operation policy. -/
def reflectSettings : Settings := ⟨false, .Reflect⟩

end Befunge

namespace Befunge

/-- **C1** (code_bug evaluation).  The claim says that after
`set(p, space)` at a coordinate p outside the dense region, p is absent
from `entries()`.  On the code, `set` removes the entry and then
unconditionally re-inserts it, so `set((10,0), 32)` on a fresh grid leaves
the sparse entry `((10,0), 32)` present in `entries()`; only the
`get_wrapped` half of the claim holds (it returns the space value 32). -/
theorem set_space_keeps_entry :
    FungeSpace.new.set (10, 0) 32 = some c1Grid
    ∧ (((10 : Int), (0 : Int)), (32 : Int)) ∈ c1Grid.entries
    ∧ c1Grid.get_wrapped (10, 0) = 32
    ∧ FungeSpace.new.map = [] := by
  refine ⟨by decide, ?_, by decide, rfl⟩
  simp [c1Grid, FungeSpace.entries]

/-- **C4** (counterexample).  The claim says `get_wrapped` returns the
space value (32) for a coordinate with a negative component; on the code
it returns 0. -/
theorem get_wrapped_negative_not_space :
    FungeSpace.new.get_wrapped (-1, 0) = 0 ∧ (0 : Int) ≠ 32 := by
  constructor
  · decide
  · decide

/-- **C4** (amended).  For every grid and every coordinate with at least
one negative component, `get_wrapped` returns 0 — not the space value 32
that it returns for absent non-negative entries. -/
theorem get_wrapped_negative_eq_zero (fs : FungeSpace) (pos : Coord)
    (h : pos.1 < 0 ∨ pos.2 < 0) : fs.get_wrapped pos = 0 := by
  unfold FungeSpace.get_wrapped
  simp [h]

/-- Witness for `get_wrapped_negative_eq_zero` at the concrete coordinate
(-1, 0) on the fresh grid. -/
theorem get_wrapped_negative_eq_zero_witness :
    FungeSpace.new.get_wrapped (-1, 0) = 0 :=
  get_wrapped_negative_eq_zero FungeSpace.new (-1, 0) (by left; decide)

/-- **C2** (code_bug evaluation).  The claim says
`new_from_string (serialize g)` reproduces the `entries()` content up to
trailing spaces trimmed per row.  On the code, re-parsing materializes
every interior space at x ≥ 10 as an explicit sparse entry (because `set`
re-inserts after its remove), so the round trip of the grid holding only
A at (12, 0) gains the non-trailing entries ((10,0), 32) and ((11,0), 32)
that the original grid does not have. -/
theorem roundtrip_materializes_spaces :
    FungeSpace.new.set (12, 0) 65 = some c2Grid
    ∧ c2Grid.serialize = some c2Text
    ∧ FungeSpace.new_from_string c2Text = some c2Roundtrip
    ∧ c2Roundtrip.map.find? (fun e => e.1 == ((10 : Int), (0 : Int)))
        = some (((10 : Int), (0 : Int)), (32 : Int))
    ∧ c2Grid.map.find? (fun e => e.1 == ((10 : Int), (0 : Int))) = none := by
  refine ⟨by decide, by decide, by decide, by decide, by decide⟩

/-- **C5** (code_bug evaluation).  The claim says `serialize` fails
loudly whenever a stored value is not a single Unicode scalar value.  The
value 2^32 + 65 exceeds 0x10FFFF (so it is not a scalar value), yet
`serialize` succeeds: `char::from_u32(val as u32)` truncates it to 65 and
the letter A is silently written. -/
theorem serialize_truncates_silently :
    FungeSpace.new.set (0, 0) (2 ^ 32 + 65) = some c5Grid
    ∧ (0x10FFFF : Int) < 2 ^ 32 + 65
    ∧ c5Grid.serialize = some c5Text
    ∧ c5Text.head? = some 65 := by
  refine ⟨by decide, by decide, by decide, by decide⟩

/-- **C3** (code_bug evaluation).  The claim says a step on an
unrecognized opcode byte, or on a value outside the byte range, yields
Error(InvalidOperation) and one policy is then applied.  On the
interpreter revision in src, `do_op` on the unrecognized byte 97 (the
letter a) hits the catch-all arm and panics the process, and `step_inner`
on a cell holding 2^40 silently treats the failed byte conversion as a
no-op step (it advances and reports false, the normal status), with no
error ever surfaced. -/
theorem invalid_opcode_panics :
    State.new.do_op 97 defaultSettings = none
    ∧ c3State.step_inner defaultSettings = some ({ c3State with position := (1, 0) }, false) := by
  refine ⟨by decide, by decide⟩

/-- **C7** (code_bug evaluation).  The claim says the `x` opcode paints
the buffer element at row-major index x + y·width.  On a 3-wide, 2-high
buffer, `Graphics::pixel 1 1` paints flat index 3 = 1 + 1·size.1 (the
code multiplies y by size.1, the height), not the row-major index
4 = 1 + 1·3 the claim (and the renderer, which uploads the buffer as a
width-strided image) designates, so another pixel changes. -/
theorem pixel_uses_height_stride :
    c7Graphics.pixel 1 1 = some { c7Graphics with texture := c7Texture }
    ∧ (1 + 1 * 3 : Nat) = 4
    ∧ c7Texture.getD 4 Color32.BLACK = Color32.BLACK
    ∧ c7Texture.getD 3 Color32.BLACK = c7Graphics.current_color := by
  refine ⟨by decide, by decide, by decide, by decide⟩

/-- **C8** (confirmed).  Running the program "5 3 - ." for its seven
cells from the fresh VM produces the output "2": the first-popped
operand of the binary minus is the right-hand one. -/
theorem sub_program_outputs_two :
    (FungeSpace.new_from_string c8Text).map
      (fun fs => ((State.new_from_fungespace fs).runSteps defaultSettings 7).map State.output)
      = some (some "2") := by
  decide

/-- Every two's-complement wrap lands in the i64 range. -/
theorem wrap64_bounds (n : Int) : i64Min ≤ wrap64 n ∧ wrap64 n ≤ i64Max := by
  unfold wrap64 i64Min i64Max
  norm_num
  omega

/-- **C9** (confirmed).  After the pointer advances one step, both
position components are non-negative, and a component whose directional
move came out negative ends up at that negative value plus
i64::MAX + 1. -/
theorem position_nonneg_after_step (pos : Coord) (dir : Direction)
    (hx1 : i64Min ≤ pos.1) (hx2 : pos.1 ≤ i64Max)
    (hy1 : i64Min ≤ pos.2) (hy2 : pos.2 ≤ i64Max) :
    0 ≤ (stepPositionCoord pos dir).1 ∧ 0 ≤ (stepPositionCoord pos dir).2
    ∧ ((stepMove pos dir).1 < 0 →
        (stepPositionCoord pos dir).1 = (stepMove pos dir).1 + (i64Max + 1))
    ∧ ((stepMove pos dir).2 < 0 →
        (stepPositionCoord pos dir).2 = (stepMove pos dir).2 + (i64Max + 1)) := by
  obtain ⟨x, y⟩ := pos
  have hmx := wrap64_bounds (x + 1)
  have hmx' := wrap64_bounds (x - 1)
  have hmy := wrap64_bounds (y + 1)
  have hmy' := wrap64_bounds (y - 1)
  cases dir <;>
    · simp only [stepPositionCoord, stepMove] at *
      split_ifs <;>
        · simp only [wrap64, i64Min, i64Max] at *
          norm_num at *
          omega

/-- Witness for `position_nonneg_after_step` at the origin moving west:
the x component would become -1 and wraps to i64::MAX. -/
theorem position_nonneg_after_step_witness :
    0 ≤ (stepPositionCoord (0, 0) .West).1 ∧ 0 ≤ (stepPositionCoord (0, 0) .West).2
    ∧ ((stepMove (0, 0) .West).1 < 0 →
        (stepPositionCoord (0, 0) .West).1 = (stepMove (0, 0) .West).1 + (i64Max + 1))
    ∧ ((stepMove (0, 0) .West).2 < 0 →
        (stepPositionCoord (0, 0) .West).2 = (stepMove (0, 0) .West).2 + (i64Max + 1)) :=
  position_nonneg_after_step (0, 0) .West (by decide) (by decide) (by decide) (by decide)

/-- **C10** (confirmed).  With no graphics sub-machine, each of the
opcodes f, x, c, l, z leaves the state entirely unchanged (do_op returns
the same state with the normal status, popping and pushing nothing), and
the step on such a cell is exactly the instruction-pointer advance. -/
theorem graphics_ops_noop_without_graphics (s : State) (settings : Settings) (op : Nat)
    (hg : s.graphics = none) (hmem : op ∈ [102, 120, 99, 108, 122])
    (hcell : s.map.get s.position = some (some (op : Int)))
    (hsm : s.string_mode = false) :
    s.do_op op settings = some (s, false)
    ∧ s.step_inner settings = some (s.step_position_inner, false) := by
  have hop : s.do_op op settings = some (s, false) := by
    fin_cases hmem <;> simp [State.do_op, hg]
  refine ⟨hop, ?_⟩
  have hu8 : tryIntoU8 (op : Int) = some op := by
    fin_cases hmem <;> decide
  simp [State.step_inner, hcell, hsm, hu8, hop]

/-- Witness for `graphics_ops_noop_without_graphics`: a VM without
graphics whose current cell holds the opcode f. -/
theorem graphics_ops_noop_without_graphics_witness :
    c10State.do_op 102 defaultSettings = some (c10State, false)
    ∧ c10State.step_inner defaultSettings = some (c10State.step_position_inner, false) :=
  graphics_ops_noop_without_graphics c10State defaultSettings 102 rfl (by decide)
    (by decide) rfl

/-- **C6** (counterexample).  With the counting loop body, whose every
step reports the Normal status (it never asks to stop), the speed-10 tick
executes 5 steps, not the 2^(10−8) = 4 the claim states; and an
Error-returning step under the Reflect policy does not abort the batch
(the handler returns false), against the claim's abort clause. -/
theorem batch_size_off_by_one :
    (stepBefungeTick countingStep 10 0).2 = 5
    ∧ (5 : Nat) ≠ 2 ^ (10 - 8)
    ∧ (stepBefungeInner alwaysErrorStep reflectSettings (State.new, true, none)).2 = false := by
  refine ⟨by decide, by decide, by decide⟩

/-- The batch loop runs all `n` iterations when no step asks to stop. -/
theorem runBatch_full {σ : Type} (f : σ → σ × Bool) :
    ∀ (n : Nat) (s0 : σ), (∀ k, k < n → (f (applyN f k s0)).2 = false) →
      runBatch f n s0 = (applyN f n s0, n) := by
  intro n
  induction n with
  | zero => intro s0 _; rfl
  | succ m ih =>
    intro s0 h
    rcases hfs : f s0 with ⟨s', b⟩
    have hb : b = false := by
      have := h 0 (Nat.succ_pos m)
      simpa [applyN, hfs] using this
    subst hb
    have hrec := ih s' (fun k hk => by
      have := h (k + 1) (by omega)
      simpa [applyN, hfs] using this)
    have happ : applyN f (m + 1) s0 = applyN f m s' := by
      simp [applyN, hfs]
    simp [runBatch, hfs, hrec, happ]

/-- The batch loop stops right after the first step that asks to stop. -/
theorem runBatch_stop {σ : Type} (f : σ → σ × Bool) :
    ∀ (n j : Nat) (s0 : σ), j < n → (∀ k, k < j → (f (applyN f k s0)).2 = false) →
      (f (applyN f j s0)).2 = true → (runBatch f n s0).2 = j + 1 := by
  intro n
  induction n with
  | zero => intro j s0 hj _ _; omega
  | succ m ih =>
    intro j s0 hj hpre hstop
    rcases hfs : f s0 with ⟨s', b⟩
    cases j with
    | zero =>
      have hb : b = true := by simpa [applyN, hfs] using hstop
      subst hb
      simp [runBatch, hfs]
    | succ i =>
      have hb : b = false := by
        have := hpre 0 (Nat.succ_pos i)
        simpa [applyN, hfs] using this
      subst hb
      have hrec := ih i s' (by omega)
        (fun k hk => by
          have := hpre (k + 1) (by omega)
          simpa [applyN, hfs] using this)
        (by simpa [applyN, hfs] using hstop)
      simp [runBatch, hfs, hrec]

/-- The policy handler stops the batch exactly on a Breakpoint or on an
Error under the Halt policy. -/
theorem stepBefungeInner_stops_iff (step : State → State × StepStatus) (settings : Settings)
    (st : State × Bool × Option BefError) :
    (stepBefungeInner step settings st).2 = true ↔
      ((step st.1).2 = .Breakpoint
        ∨ ((∃ e, (step st.1).2 = .Error e)
            ∧ settings.invalid_operation_behaviour = .Halt)) := by
  obtain ⟨bf, running, err⟩ := st
  rcases hst : step bf with ⟨bf', status⟩
  cases status <;> cases hbeh : settings.invalid_operation_behaviour <;>
    (simp [stepBefungeInner, hst, hbeh]; try exact ⟨.InvalidOperation, trivial⟩)

/-- **C6** (amended).  At speeds 10–15 a tick executes exactly
2^(speed−8) + 1 steps (the loop range is inclusive), except that the
first step whose handler asks to stop — a Breakpoint, or an Error under
the Halt policy — aborts the remainder immediately, leaving exactly that
many steps executed. -/
theorem batch_size_amended {σ : Type} (f : σ → σ × Bool) (speed : Nat)
    (_h10 : 10 ≤ speed) (_h15 : speed ≤ 15) (s0 : σ) (settings : Settings)
    (step : State → State × StepStatus) (st : State × Bool × Option BefError) :
    ((∀ k, k < 2 ^ (speed - 8) + 1 → (f (applyN f k s0)).2 = false) →
        (stepBefungeTick f speed s0).2 = 2 ^ (speed - 8) + 1)
    ∧ (∀ j, j < 2 ^ (speed - 8) + 1 → (∀ k, k < j → (f (applyN f k s0)).2 = false) →
        (f (applyN f j s0)).2 = true → (stepBefungeTick f speed s0).2 = j + 1)
    ∧ ((stepBefungeInner step settings st).2 = true ↔
        ((step st.1).2 = .Breakpoint
          ∨ ((∃ e, (step st.1).2 = .Error e)
              ∧ settings.invalid_operation_behaviour = .Halt))) := by
  refine ⟨?_, ?_, stepBefungeInner_stops_iff step settings st⟩
  · intro h
    have := runBatch_full f (2 ^ (speed - 8) + 1) s0 h
    simp [stepBefungeTick, batchIterations, this]
  · intro j hj hpre hstop
    exact runBatch_stop f (2 ^ (speed - 8) + 1) j s0 hj hpre hstop

/-- Witness for `batch_size_amended`: the counting loop body at speed 10
executes all 2^2 + 1 = 5 steps. -/
theorem batch_size_amended_witness :
    (stepBefungeTick countingStep 10 0).2 = 2 ^ (10 - 8) + 1 :=
  (batch_size_amended countingStep 10 (by decide) (by decide) 0 defaultSettings
      alwaysErrorStep (State.new, true, none)).1 (fun k _ => rfl)

end Befunge
